import Mathlib

/-!
Verification of the check orchestration and aggregation engine of
spec-up-t-healthcheck: the result/summary model (`lib/health-check-utils.js`),
the check registry (`lib/health-check-registry.js`) and the orchestrator
(`lib/health-check-orchestrator.js`), shallowly embedded in Lean.

Modelling conventions:
* JavaScript runtime values returned by untrusted check plug-ins are modelled
  by the inductive `JsValue`; field access mirrors JS property lookup.
* A check plug-in (`checkFunction`) is modelled by its observable behaviour:
  it either resolves with a value, rejects with an error message, or never
  settles (`CheckFnBehavior`).
* Promises are modelled by `POutcome`: settled, rejected, or never settling.
  A promise raced against a timer (`executeWithTimeout`) always settles: when
  the underlying promise never settles, the timer rejection wins.
* `Date.parse` is host behaviour and is abstracted as an oracle
  `dp : String → Bool` (whether a string parses as a date); wall-clock
  readings (`new Date().toISOString()`, elapsed milliseconds) are threaded as
  parameters `ts` and `elapsed`.
* `Array.prototype.sort` with the registry comparator is modelled by the
  stable `List.mergeSort`; `Promise.allSettled` returns results in input
  (dispatch) order, so the parallel collection loop is a fold over the
  dispatched id list; JS `Map` is modelled by an association list where `set`
  updates an existing key in place (preserving insertion position) and
  appends a fresh key (`mapSet`).
* The run is instrumented with an invocation trace (`RunState.invocations`)
  recording each time a registered, enabled check function is actually
  invoked; provider operations happen only inside check functions, so an
  empty trace means the provider was never touched.
* The lazy `autoDiscover` step performs dynamic module loading (external
  plug-in wiring); runs are modelled against an already-discovered registry,
  for which that step is the identity.
-/

namespace SpecUpT

/-- A JavaScript runtime value, as far as the health-check core inspects it. -/
inductive JsValue where
  | vnull
  | vbool (b : Bool)
  | vnum (n : Int)
  | vstr (s : String)
  | varr (elems : List JsValue)
  | vobj (fields : List (String × JsValue))

/-- First binding of a key in a JS object's field list (JS objects have unique
keys, so first = only). -/
def lookupField : List (String × JsValue) → String → Option JsValue
  | [], _ => none
  | (k, v) :: rest, key => if k = key then some v else lookupField rest key

/-- JS property read `v[key]`, `none` standing for `undefined`. -/
def getField (v : JsValue) (key : String) : Option JsValue :=
  match v with
  | .vobj fs => lookupField fs key
  | _ => none

/-- Property read that also requires the value to be a string
(`typeof v[key] === 'string'`). -/
def getStrField (v : JsValue) (key : String) : Option String :=
  match getField v key with
  | some (.vstr s) => some s
  | _ => none

/-- JS test `v.status === s` for a string literal `s`. -/
def statusIs (v : JsValue) (s : String) : Bool :=
  match getStrField v "status" with
  | some t => t == s
  | none => false

/-- `HEALTH_CHECK_STATUSES` from health-check-utils.js. -/
def HEALTH_CHECK_STATUSES : List String := ["pass", "fail", "warn", "skip"]

/-- `isValidHealthCheckResult` from health-check-utils.js (lines 165-195).
`dp` is the `Date.parse`-succeeds oracle for the timestamp check.  Only
objects can pass: primitives fail the initial truthiness/typeof gate and
arrays fail the required-field loop, exactly as in the source. `details`, if
present, must be a non-null object (in JS an array also has typeof
'object'). -/
def isValidHealthCheckResult (dp : String → Bool) (v : JsValue) : Bool :=
  match v with
  | .vobj fs =>
    match lookupField fs "check", lookupField fs "status",
          lookupField fs "message", lookupField fs "timestamp" with
    | some (.vstr _), some (.vstr st), some (.vstr _), some (.vstr tsv) =>
      HEALTH_CHECK_STATUSES.contains st && dp tsv &&
      (match lookupField fs "details" with
       | none => true
       | some (.vobj _) => true
       | some (.varr _) => true
       | some _ => false)
    | _, _, _, _ => false
  | _ => false

/-- The aggregate statistics computed by `calculateSummary`
(health-check-utils.js lines 124-145). -/
structure Summary where
  total : Nat
  passed : Nat
  failed : Nat
  warnings : Nat
  skipped : Nat
  score : Nat
  hasErrors : Bool
  hasWarnings : Bool
deriving DecidableEq

/-- Body of `calculateSummary` once the input is known to be an array.
`Math.round((passed/total)*100)` on IEEE doubles is modelled as exact
rational half-up rounding, `(200*passed + total) / (2*total)` in `Nat`
arithmetic. -/
def calcCore (results : List JsValue) : Summary :=
  let total := results.length
  let passed := (results.filter (fun r => statusIs r "pass")).length
  let failed := (results.filter (fun r => statusIs r "fail")).length
  let warnings := (results.filter (fun r => statusIs r "warn")).length
  let skipped := (results.filter (fun r => statusIs r "skip")).length
  { total := total, passed := passed, failed := failed,
    warnings := warnings, skipped := skipped,
    score := if 0 < total then (200 * passed + total) / (2 * total) else 0,
    hasErrors := decide (0 < failed),
    hasWarnings := decide (0 < warnings) }

/-- `calculateSummary` from health-check-utils.js (lines 124-145), including
the `Array.isArray` validation gate. -/
def calculateSummary (v : JsValue) : Except String Summary :=
  match v with
  | .varr rs => .ok (calcCore rs)
  | _ => .error "Results must be an array"

/-- Observable behaviour of a check plug-in's `checkFunction(provider)`:
resolve with a JS value, reject with an error message, or never settle. -/
inductive CheckFnBehavior where
  | returns (v : JsValue)
  | throws (msg : String)
  | hangs

/-- Registry entry (`HealthCheckMetadata`), after the defaulting performed by
`register` (category 'general', priority 100, dependencies [], enabled true
when omitted). `priority` is an `Int` because JS numbers may be negative and
`validateMetadata` explicitly rejects negative priorities. -/
structure CheckMetadata where
  id : String
  name : String
  description : String
  category : String
  priority : Int
  dependencies : List String
  enabled : Bool
  behavior : CheckFnBehavior

/-- `HealthCheckRegistry` state: the `checks` Map (insertion-ordered, unique
ids maintained by `register`), the `categories` Set (insertion-ordered,
unique), and the auto-discovery flag. -/
structure Registry where
  checks : List CheckMetadata
  categories : List String
  autoDiscovered : Bool

/-- `registry.get(id)` (Map lookup). -/
def Registry.get (r : Registry) (id : String) : Option CheckMetadata :=
  r.checks.find? (fun m => m.id == id)

/-- `registry.has(id)`. -/
def Registry.has (r : Registry) (id : String) : Bool :=
  (r.get id).isSome

/-- Whitespace characters for the purposes of `String.prototype.trim`. -/
def isJsWhitespace (c : Char) : Bool :=
  (c == ' ') || (c == '\t') || (c == '\n') || (c == '\r')

/-- `validateMetadata` (health-check-registry.js lines 85-113), restricted to
the conditions that are not enforced by the embedding's types (presence of
fields and `checkFunction` being a function are type-level here): the JS
falsy test on the required display strings, the trimmed-id emptiness check
(`metadata.id.trim() === ''` holds exactly when every character of the id is
whitespace) and the non-negative priority check.  Returns the thrown
message, if any. -/
def validateMetadata (m : CheckMetadata) : Option String :=
  if m.id = "" then some "Health check metadata missing required field: id"
  else if m.name = "" then some "Health check metadata missing required field: name"
  else if m.description = "" then some "Health check metadata missing required field: description"
  else if m.id.data.all isJsWhitespace then some "Health check ID must be a non-empty string"
  else if m.priority < 0 then some "Health check priority must be a non-negative number"
  else none

/-- `registry.register(metadata)` (lines 58-76): validate, reject duplicate
ids, insert into the checks Map and add the category to the category Set. -/
def Registry.register (r : Registry) (m : CheckMetadata) : Except String Registry :=
  match validateMetadata m with
  | some e => .error e
  | none =>
    if r.has m.id then
      .error ("Health check with ID '" ++ m.id ++ "' is already registered")
    else
      .ok { r with
            checks := r.checks ++ [m],
            categories :=
              if r.categories.contains m.category then r.categories
              else r.categories ++ [m.category] }

/-- `registry.unregister(id)` (lines 121-123): `Map.delete`, returning
whether the entry was present; the category Set is untouched. -/
def Registry.unregister (r : Registry) (id : String) : Bool × Registry :=
  (r.has id, { r with checks := r.checks.filter (fun m => m.id != id) })

/-- `registry.getAllIds()`. -/
def Registry.getAllIds (r : Registry) : List String :=
  r.checks.map (fun m => m.id)

/-- `registry.getByCategory(category)` (lines 150-152). -/
def Registry.getByCategory (r : Registry) (cat : String) : List CheckMetadata :=
  r.checks.filter (fun m => m.category == cat)

/-- `registry.getCategories()` (lines 159-161). -/
def Registry.getCategories (r : Registry) : List String :=
  r.categories

/-- `registry.clear()` (lines 357-362). -/
def Registry.clear (_ : Registry) : Registry :=
  { checks := [], categories := ["general"], autoDiscovered := false }

/-- The comparator of `getExecutionOrder` (lines 191-196):
`a.priority - b.priority`, ties broken by `a.id.localeCompare(b.id)`
(modelled as lexicographic string order), as a boolean total preorder. -/
def metaLe (a b : CheckMetadata) : Bool :=
  decide (a.priority < b.priority ∨ (a.priority = b.priority ∧ a.id ≤ b.id))

/-- `registry.getExecutionOrder(requestedIds?)` (lines 182-197): restrict to
the requested ids when given (silently dropping unregistered ones), keep only
enabled checks, and stably sort by `(priority, id)`. -/
def Registry.getExecutionOrder (r : Registry) (requested : Option (List String)) :
    List CheckMetadata :=
  let available :=
    match requested with
    | some ids => ids.filterMap r.get
    | none => r.checks
  (available.filter (fun m => m.enabled)).mergeSort metaLe

/-- Outcome of awaiting a JS promise: settled with a value, rejected with an
error message, or never settling. -/
inductive POutcome (α : Type) where
  | settled (a : α)
  | thrown (msg : String)
  | hang

/-- `registry.execute(id, provider)` (lines 207-229): unregistered and
disabled ids reject before the try block; a plug-in rejection and an invalid
result shape are wrapped in `Failed to execute health check '<id>': ...`; a
hanging plug-in makes `execute` itself never settle. -/
def Registry.execute (dp : String → Bool) (r : Registry) (id : String) :
    POutcome JsValue :=
  match r.get id with
  | none => .thrown ("Health check '" ++ id ++ "' is not registered")
  | some m =>
    if m.enabled then
      match m.behavior with
      | .hangs => .hang
      | .throws msg =>
        .thrown ("Failed to execute health check '" ++ id ++ "': " ++ msg)
      | .returns v =>
        if isValidHealthCheckResult dp v then .settled v
        else
          .thrown ("Failed to execute health check '" ++ id ++ "': " ++
            ("Health check '" ++ id ++ "' returned invalid result structure"))
    else .thrown ("Health check '" ++ id ++ "' is disabled")

/-- Caller-supplied `HealthCheckOptions` before merging with defaults
(absent properties are `none`). -/
structure UserOptions where
  checks : Option (List String) := none
  categories : Option (List String) := none
  continueOnError : Option Bool := none
  timeout : Option Nat := none
  parallel : Option Bool := none

/-- Options after `{ ...this.defaultOptions, ...options }`
(orchestrator line 91). -/
structure Options where
  checks : Option (List String)
  categories : Option (List String)
  continueOnError : Bool
  timeout : Nat
  parallel : Bool

/-- The defaults merge: `continueOnError=true`, `timeout=30000`,
`parallel=false`; `checks`/`categories` have no default. -/
def mergeOptions (u : UserOptions) : Options :=
  { checks := u.checks,
    categories := u.categories,
    continueOnError := u.continueOnError.getD true,
    timeout := u.timeout.getD 30000,
    parallel := u.parallel.getD false }

/-- The provider fields the orchestrator reads when assembling a report
(`provider.type`, `provider.repoPath`). Provider operations (`readFile`,
`fileExists`, `directoryExists`, `listFiles`) occur only inside check
functions and are not called by the orchestrator itself. -/
structure ProviderInfo where
  type : String
  repoPath : Option String

/-- The `provider` block of a report:
`{ type, ...(repoPath && { repoPath }) }` — `repoPath` is included only when
truthy (present and non-empty). -/
structure ShownProvider where
  type : String
  repoPath : Option String
deriving DecidableEq

def shownProvider (p : ProviderInfo) : ShownProvider :=
  { type := p.type,
    repoPath :=
      match p.repoPath with
      | some s => if s = "" then none else some s
      | none => none }

/-- The top-level `error: {message, type: 'orchestration'}` field of a
degraded report. -/
structure OrchError where
  message : String
  type : String
deriving DecidableEq

/-- The `summary` block of a report: the `calculateSummary` statistics plus
the execution metadata spread over it by `generateReport`,
`createEmptyReport` and `createErrorReport`. -/
structure ReportSummary where
  total : Nat
  passed : Nat
  failed : Nat
  warnings : Nat
  skipped : Nat
  score : Nat
  hasErrors : Bool
  hasWarnings : Bool
  executionTimeMs : Option Nat
  executionDate : Option String
  orchestrationError : Option String
deriving DecidableEq

/-- Spread a core `Summary` into a report summary with the given metadata. -/
def summaryWith (s : Summary) (etm : Option Nat) (ed : Option String)
    (oe : Option String) : ReportSummary :=
  { total := s.total, passed := s.passed, failed := s.failed,
    warnings := s.warnings, skipped := s.skipped, score := s.score,
    hasErrors := s.hasErrors, hasWarnings := s.hasWarnings,
    executionTimeMs := etm, executionDate := ed, orchestrationError := oe }

/-- `HealthCheckReport`. -/
structure Report where
  results : List JsValue
  summary : ReportSummary
  timestamp : String
  provider : ShownProvider
  error : Option OrchError

/-- The mutable `ExecutionContext` accumulated during a run: the results Map,
the failure id list, plus the instrumentation trace of actually-invoked check
functions. -/
structure RunState where
  results : List (String × JsValue)
  failures : List String
  invocations : List String

def initState : RunState :=
  { results := [], failures := [], invocations := [] }

/-- JS `Map.prototype.set`: update an existing key in place (keeping its
insertion position) or append a new entry. -/
def mapSet (m : List (String × JsValue)) (k : String) (v : JsValue) :
    List (String × JsValue) :=
  if m.any (fun p => p.1 == k) then
    m.map (fun p => if p.1 == k then (p.1, v) else p)
  else m ++ [(k, v)]

/-- JS `Map.prototype.get`. -/
def mapLookup (m : List (String × JsValue)) (k : String) : Option JsValue :=
  (m.find? (fun p => p.1 == k)).map (fun p => p.2)

/-- The keys of the Map, in insertion order. -/
def mapKeys (m : List (String × JsValue)) : List String :=
  m.map (fun p => p.1)

/-- JS `Array.from(map.values())`. -/
def mapValues (m : List (String × JsValue)) : List JsValue :=
  m.map (fun p => p.2)

/-- `executeWithTimeout` (orchestrator lines 254-269): race the registry
execution against a timer of `t` ms. A settled/rejected execution wins the
race (prompt settlement); when the execution never settles, the timer
rejects with the timeout message. -/
def executeWithTimeout (dp : String → Bool) (r : Registry) (id : String)
    (t : Nat) : Except String JsValue :=
  match Registry.execute dp r id with
  | .settled v => .ok v
  | .thrown msg => .error msg
  | .hang =>
    .error ("Health check '" ++ id ++ "' timed out after " ++ Nat.repr t ++ "ms")

/-- `createCheckErrorResult` (orchestrator lines 279-290). -/
def createCheckErrorResult (ts id errMsg : String) : JsValue :=
  .vobj [("check", .vstr id),
         ("status", .vstr "fail"),
         ("message", .vstr ("Health check execution failed: " ++ errMsg)),
         ("timestamp", .vstr ts),
         ("details", .vobj [("error", .vstr errMsg),
                            ("executionError", .vbool true)])]

/-- Whether running id `id` actually invokes a check function: `execute`
rejects before calling the plug-in when the id is unregistered or disabled. -/
def invokesCheck (r : Registry) (id : String) : Bool :=
  match r.get id with
  | some m => m.enabled
  | none => false

/-- The result value recorded for id `id` by one execution attempt: the
settled value, or the synthesized `createCheckErrorResult` on rejection. -/
def storedVal (dp : String → Bool) (r : Registry) (t : Nat) (ts id : String) :
    JsValue :=
  match executeWithTimeout dp r id t with
  | .ok v => v
  | .error e => createCheckErrorResult ts id e

/-- Whether one execution attempt for id `id` records a failure (a settled
`fail` result, or any rejection). -/
def failsOn (dp : String → Bool) (r : Registry) (t : Nat) (id : String) : Bool :=
  match executeWithTimeout dp r id t with
  | .ok v => statusIs v "fail"
  | .error _ => true

/-- One execution attempt for id `id` against the context: the body shared by
the loop of `runChecksSequentially` (lines 180-197) and the per-id branch of
`runChecksInParallel` (lines 224-237), which record results and failures
identically. -/
def stepCheck (dp : String → Bool) (r : Registry) (t : Nat) (ts : String)
    (st : RunState) (id : String) : RunState :=
  let st1 : RunState :=
    { st with invocations := st.invocations ++ (if invokesCheck r id then [id] else []) }
  match executeWithTimeout dp r id t with
  | .ok v =>
    { st1 with
      results := mapSet st1.results id v,
      failures := if statusIs v "fail" then st1.failures ++ [id] else st1.failures }
  | .error e =>
    { st1 with
      results := mapSet st1.results id (createCheckErrorResult ts id e),
      failures := st1.failures ++ [id] }

/-- The loop of `runChecksSequentially` (lines 175-198): before each check,
break when `continueOnError` is false and a failure has been recorded. -/
def runSeqLoop (dp : String → Bool) (r : Registry) (o : Options) (ts : String) :
    List CheckMetadata → RunState → RunState
  | [], st => st
  | m :: rest, st =>
    if o.continueOnError = false ∧ st.failures ≠ [] then st
    else runSeqLoop dp r o ts rest (stepCheck dp r o.timeout ts st m.id)

/-- `runChecksSequentially` (lines 172-199): iterate the registry execution
order restricted to the selected ids. -/
def runChecksSequentially (dp : String → Bool) (r : Registry) (o : Options)
    (ts : String) (checkIds : List String) (st : RunState) : RunState :=
  runSeqLoop dp r o ts (r.getExecutionOrder (some checkIds)) st

/-- `runChecksInParallel` (lines 208-243): all selected ids are dispatched;
`Promise.allSettled` yields the per-id outcomes in input (dispatch) order,
independently of settle order, and the collection loop folds them into the
results Map in that order. `continueOnError` has no effect here. -/
def runChecksInParallel (dp : String → Bool) (r : Registry) (t : Nat)
    (ts : String) (checkIds : List String) (st : RunState) : RunState :=
  checkIds.foldl (stepCheck dp r t ts) st

/-- `createEmptyReport` (lines 326-346). -/
def createEmptyReport (pv : ProviderInfo) (ts : String) : Report :=
  { results := [],
    summary := { total := 0, passed := 0, failed := 0, warnings := 0,
                 skipped := 0, score := 0, hasErrors := false,
                 hasWarnings := false, executionTimeMs := some 0,
                 executionDate := none, orchestrationError := none },
    timestamp := ts,
    provider := shownProvider pv,
    error := none }

/-- `generateReport` (lines 299-317). -/
def generateReport (pv : ProviderInfo) (ts : String) (elapsed : Nat)
    (st : RunState) : Report :=
  let results := mapValues st.results
  { results := results,
    summary := summaryWith (calcCore results) (some elapsed) (some ts) none,
    timestamp := ts,
    provider := shownProvider pv,
    error := none }

/-- `createErrorReport` (lines 356-376): the results collected so far, their
summary extended with `orchestrationError`, and the top-level
`error: {message, type: 'orchestration'}` field. -/
def createErrorReport (pv : ProviderInfo) (ts : String) (st : RunState)
    (msg : String) : Report :=
  let results := mapValues st.results
  { results := results,
    summary := summaryWith (calcCore results) none none (some msg),
    timestamp := ts,
    provider := shownProvider pv,
    error := some { message := msg, type := "orchestration" } }

/-- `selectChecksToRun` (lines 140-163). An explicit non-empty `checks` list
is filtered to registered ids (unregistered ones dropped with a logged
warning); an empty or absent `checks` falls through to `categories`
(de-duplicated union) and then to all enabled checks in execution order. -/
def selectChecksToRun (r : Registry) (o : Options) : List String :=
  match o.checks with
  | some (c :: cs) => (c :: cs).filter (fun i => r.has i)
  | _ =>
    match o.categories with
    | some (c :: cs) =>
      ((c :: cs).flatMap (fun cat => (r.getByCategory cat).map (fun m => m.id))).eraseDups
    | _ => (r.getExecutionOrder none).map (fun m => m.id)

/-- The try/catch skeleton of `runHealthChecks` (orchestrator lines 94-113)
with the three orchestration steps abstracted, so that exception containment
can be stated for arbitrary (including hypothetically throwing) step
outcomes: `selectStep` is the outcome of `selectChecksToRun`, `execStep` the
execution phase — returning the context state accumulated so far together
with an optionally thrown error — and `genStep` the outcome of
`generateReport`.  Every thrown step error is converted by the catch block
into `createErrorReport`; the function is total, so a `Report` is always
returned. -/
def runHealthChecksCatch (pv : ProviderInfo) (ts : String)
    (selectStep : Except String (List String))
    (execStep : List String → RunState × Option String)
    (genStep : RunState → Except String Report) : Report :=
  match selectStep with
  | .error e => createErrorReport pv ts initState e
  | .ok sel =>
    if sel.isEmpty then createEmptyReport pv ts
    else
      match execStep sel with
      | (st, some e) => createErrorReport pv ts st e
      | (st, none) =>
        match genStep st with
        | .error e => createErrorReport pv ts st e
        | .ok rep => rep

/-- `runHealthChecks` (lines 85-113) against an already-discovered registry,
instrumented with the invocation trace: merge options, select the checks,
short-circuit to the empty report on an empty selection, run sequentially or
in parallel, and assemble the report.  (In the concrete orchestrator none of
the steps throws; the catch path is stated over `runHealthChecksCatch`.) -/
def runHealthChecksT (dp : String → Bool) (r : Registry) (pv : ProviderInfo)
    (ts : String) (elapsed : Nat) (u : UserOptions) : Report × List String :=
  let o := mergeOptions u
  let sel := selectChecksToRun r o
  if sel.isEmpty then (createEmptyReport pv ts, [])
  else
    let st :=
      if o.parallel then runChecksInParallel dp r o.timeout ts sel initState
      else runChecksSequentially dp r o ts sel initState
    (generateReport pv ts elapsed st, st.invocations)

/-- `runHealthChecks` proper (the report alone). -/
def runHealthChecks (dp : String → Bool) (r : Registry) (pv : ProviderInfo)
    (ts : String) (elapsed : Nat) (u : UserOptions) : Report :=
  (runHealthChecksT dp r pv ts elapsed u).1

/-! ### Concrete fixtures, used to evaluate the model at specific inputs -/

/-- A `Date.parse` oracle accepting every string. -/
def dpAll : String → Bool := fun _ => true

/-- A well-formed plug-in result with status `pass`. -/
def passResult (id : String) : JsValue :=
  .vobj [("check", .vstr id), ("status", .vstr "pass"),
         ("message", .vstr "ok"),
         ("timestamp", .vstr "2024-01-01T00:00:00.000Z")]

/-- A well-formed plug-in result with status `fail`. -/
def failResult (id : String) : JsValue :=
  .vobj [("check", .vstr id), ("status", .vstr "fail"),
         ("message", .vstr "broken"),
         ("timestamp", .vstr "2024-01-01T00:00:00.000Z")]

/-- Registry entry fixture. -/
def mkCheck (id : String) (pr : Int) (b : CheckFnBehavior) : CheckMetadata :=
  { id := id, name := "n", description := "d", category := "general",
    priority := pr, dependencies := [], enabled := true, behavior := b }

def mA : CheckMetadata := mkCheck "a" 100 (.returns (passResult "a"))

def mPassA : CheckMetadata := mkCheck "a" 10 (.returns (passResult "a"))

def mFailB : CheckMetadata := mkCheck "b" 20 (.returns (failResult "b"))

def mPassC : CheckMetadata := mkCheck "c" 30 (.returns (passResult "c"))

def mHangH : CheckMetadata := mkCheck "h" 100 .hangs

/-- One-check registry (a single passing check `a`), post-discovery. -/
def R1 : Registry :=
  { checks := [mA], categories := ["general"], autoDiscovered := true }

/-- Two-check registry (`a` passes, `b` fails), post-discovery. -/
def R2 : Registry :=
  { checks := [mPassA, mFailB], categories := ["general"], autoDiscovered := true }

/-- Three-check registry (`a` passes, `b` fails, `c` passes; priorities
10 < 20 < 30), post-discovery. -/
def R3 : Registry :=
  { checks := [mPassA, mFailB, mPassC], categories := ["general"],
    autoDiscovered := true }

/-- One-check registry whose check never settles. -/
def RH : Registry :=
  { checks := [mHangH], categories := ["general"], autoDiscovered := true }

def pv1 : ProviderInfo := { type := "local", repoPath := some "/repo" }

/-! ### Helper lemmas: statuses -/

theorem statusIs_eq_true_iff {v : JsValue} {s : String} :
    statusIs v s = true ↔ getStrField v "status" = some s := by
  unfold statusIs
  cases h : getStrField v "status" <;> simp

theorem statusIs_false_of_ne {v : JsValue} {s s' : String}
    (h : statusIs v s = true) (hne : s ≠ s') : statusIs v s' = false := by
  rw [statusIs_eq_true_iff] at h
  unfold statusIs
  rw [h]
  simp [hne]

/-! ### Helper lemmas: the JS `Map` model -/

theorem mapLookup_nil (k : String) : mapLookup [] k = none := rfl

theorem mapLookup_cons (a : String) (b : JsValue) (t : List (String × JsValue))
    (k : String) :
    mapLookup ((a, b) :: t) k = if a = k then some b else mapLookup t k := by
  simp only [mapLookup, List.find?_cons]
  cases h : (a == k) <;> simp_all

theorem mapKeys_mem_iff_any (m : List (String × JsValue)) (k : String) :
    k ∈ mapKeys m ↔ m.any (fun p => p.1 == k) = true := by
  simp [mapKeys, List.any_eq_true]

theorem mapLookup_isSome_iff (m : List (String × JsValue)) (k : String) :
    (mapLookup m k).isSome = true ↔ k ∈ mapKeys m := by
  induction m with
  | nil => simp [mapLookup_nil, mapKeys]
  | cons p t ih =>
    obtain ⟨a, b⟩ := p
    rw [mapLookup_cons]
    by_cases h : a = k
    · subst h; simp [mapKeys]
    · have h2 : ¬ k = a := fun hh => h hh.symm
      simp only [if_neg h, mapKeys, List.map_cons, List.mem_cons]
      simp only [mapKeys] at ih
      rw [ih]
      simp [h2]

theorem mapLookup_mem_values {m : List (String × JsValue)} {k : String}
    {v : JsValue} (h : mapLookup m k = some v) : v ∈ mapValues m := by
  induction m with
  | nil => simp [mapLookup_nil] at h
  | cons p t ih =>
    obtain ⟨a, b⟩ := p
    rw [mapLookup_cons] at h
    by_cases hk : a = k
    · rw [if_pos hk] at h
      simp [mapValues]
      exact Or.inl (Option.some.inj h).symm
    · rw [if_neg hk] at h
      simp [mapValues]
      exact Or.inr (by simpa [mapValues] using ih h)

theorem mapSet_of_fresh {m : List (String × JsValue)} {k : String}
    (hk : k ∉ mapKeys m) (v : JsValue) : mapSet m k v = m ++ [(k, v)] := by
  unfold mapSet
  rw [if_neg]
  intro hany
  exact hk ((mapKeys_mem_iff_any m k).mpr hany)

theorem mapKeys_mapSet (m : List (String × JsValue)) (k : String) (v : JsValue) :
    mapKeys (mapSet m k v) = if k ∈ mapKeys m then mapKeys m else mapKeys m ++ [k] := by
  unfold mapSet
  by_cases h : k ∈ mapKeys m
  · rw [if_pos ((mapKeys_mem_iff_any m k).mp h), if_pos h]
    simp only [mapKeys, List.map_map]
    apply List.map_congr_left
    intro p _
    by_cases hp : p.1 = k <;> simp [hp]
  · rw [if_neg (fun hany => h ((mapKeys_mem_iff_any m k).mpr hany)), if_neg h]
    simp [mapKeys]

theorem mapKeys_mapSet_nodup {m : List (String × JsValue)} {k : String}
    {v : JsValue} (h : (mapKeys m).Nodup) : (mapKeys (mapSet m k v)).Nodup := by
  rw [mapKeys_mapSet]
  by_cases hk : k ∈ mapKeys m
  · rwa [if_pos hk]
  · rw [if_neg hk]
    simp [List.nodup_append, h, hk]

theorem mapLookup_replaceAll (m : List (String × JsValue)) (k k' : String)
    (v : JsValue) :
    mapLookup (m.map (fun p => if p.1 == k then (p.1, v) else p)) k'
      = if k' = k ∧ k' ∈ mapKeys m then some v else mapLookup m k' := by
  induction m with
  | nil => simp [mapKeys, mapLookup_nil]
  | cons p t ih =>
    obtain ⟨a, b⟩ := p
    by_cases hak : a = k
    · subst hak
      simp only [List.map_cons]
      rw [if_pos (by simp)]
      rw [mapLookup_cons, mapLookup_cons]
      by_cases hk : a = k'
      · subst hk
        simp [mapKeys]
      · have hk2 : ¬ k' = a := fun hh => hk hh.symm
        rw [if_neg hk, if_neg hk, ih]
        by_cases hmem : k' = a ∧ k' ∈ mapKeys ((a, b) :: t)
        · exact absurd hmem.1 hk2
        · have : (k' = a ∧ k' ∈ mapKeys t) ↔ (k' = a ∧ k' ∈ mapKeys ((a, b) :: t)) := by
            constructor
            · rintro ⟨h1, h2⟩; exact ⟨h1, by simp [mapKeys]; right; simpa [mapKeys] using h2⟩
            · rintro ⟨h1, _⟩; exact absurd h1 hk2
          rw [if_neg (fun hh : k' = a ∧ k' ∈ mapKeys t => hmem (this.mp hh)),
              if_neg hmem]
    · simp only [List.map_cons]
      rw [if_neg (by simp [hak])]
      rw [mapLookup_cons, mapLookup_cons]
      by_cases hk : a = k'
      · have hcond : ¬ (k' = k ∧ k' ∈ mapKeys ((a, b) :: t)) :=
          fun hh => hak (hk.trans hh.1)
        rw [if_pos hk, if_pos hk, if_neg hcond]
      · rw [if_neg hk, if_neg hk, ih]
        have hiff : (k' = k ∧ k' ∈ mapKeys t) ↔ (k' = k ∧ k' ∈ mapKeys ((a, b) :: t)) := by
          constructor
          · rintro ⟨h1, h2⟩; exact ⟨h1, by simp [mapKeys]; right; simpa [mapKeys] using h2⟩
          · rintro ⟨h1, h2⟩
            refine ⟨h1, ?_⟩
            simp [mapKeys] at h2
            rcases h2 with h2 | h2
            · exact absurd h2.symm hk
            · simpa [mapKeys] using h2
        by_cases hc : k' = k ∧ k' ∈ mapKeys t
        · rw [if_pos hc, if_pos (hiff.mp hc)]
        · rw [if_neg hc, if_neg (fun hh => hc (hiff.mpr hh))]

theorem mapLookup_append_of_none {m : List (String × JsValue)} {k : String}
    (h : mapLookup m k = none) (m' : List (String × JsValue)) :
    mapLookup (m ++ m') k = mapLookup m' k := by
  induction m with
  | nil => simp
  | cons p t ih =>
    obtain ⟨a, b⟩ := p
    rw [mapLookup_cons] at h
    by_cases ha : a = k
    · rw [if_pos ha] at h; exact absurd h (by simp)
    · rw [if_neg ha] at h
      rw [List.cons_append, mapLookup_cons, if_neg ha]
      exact ih h

theorem mapLookup_append_of_some {m : List (String × JsValue)} {k : String}
    {v : JsValue} (h : mapLookup m k = some v) (m' : List (String × JsValue)) :
    mapLookup (m ++ m') k = some v := by
  induction m with
  | nil => simp [mapLookup_nil] at h
  | cons p t ih =>
    obtain ⟨a, b⟩ := p
    rw [mapLookup_cons] at h
    rw [List.cons_append, mapLookup_cons]
    by_cases ha : a = k
    · rwa [if_pos ha] at h ⊢
    · rw [if_neg ha] at h ⊢
      exact ih h

theorem mapLookup_mapSet (m : List (String × JsValue)) (k k' : String)
    (v : JsValue) :
    mapLookup (mapSet m k v) k' = if k' = k then some v else mapLookup m k' := by
  by_cases hmem : k ∈ mapKeys m
  · unfold mapSet
    rw [if_pos ((mapKeys_mem_iff_any m k).mp hmem), mapLookup_replaceAll]
    by_cases hk : k' = k
    · subst hk; simp [hmem]
    · simp [hk]
  · rw [mapSet_of_fresh hmem v]
    have hnone : mapLookup m k = none := by
      cases h : mapLookup m k with
      | none => rfl
      | some w =>
        exact absurd ((mapLookup_isSome_iff m k).mp (by simp [h])) hmem
    by_cases hk : k' = k
    · subst hk
      rw [mapLookup_append_of_none hnone, mapLookup_cons, if_pos rfl, if_pos rfl]
    · rw [if_neg hk]
      cases h : mapLookup m k' with
      | some w => exact mapLookup_append_of_some h [(k, v)]
      | none =>
        have h1 := mapLookup_append_of_none h [(k, v)]
        rw [mapLookup_cons, if_neg (fun hh : k = k' => hk hh.symm),
            mapLookup_nil] at h1
        rw [h1]

/-! ### Helper lemmas: one execution step and the collection folds -/

theorem stepCheck_results (dp : String → Bool) (r : Registry) (t : Nat)
    (ts : String) (st : RunState) (id : String) :
    (stepCheck dp r t ts st id).results
      = mapSet st.results id (storedVal dp r t ts id) := by
  unfold stepCheck storedVal
  cases h : executeWithTimeout dp r id t <;> simp [h]

theorem stepCheck_failures (dp : String → Bool) (r : Registry) (t : Nat)
    (ts : String) (st : RunState) (id : String) :
    (stepCheck dp r t ts st id).failures
      = st.failures ++ (if failsOn dp r t id then [id] else []) := by
  unfold stepCheck failsOn
  cases h : executeWithTimeout dp r id t with
  | ok v =>
    cases hs : statusIs v "fail" <;> simp [h, hs]
  | error e => simp [h]

theorem stepCheck_invocations (dp : String → Bool) (r : Registry) (t : Nat)
    (ts : String) (st : RunState) (id : String) :
    (stepCheck dp r t ts st id).invocations
      = st.invocations ++ (if invokesCheck r id then [id] else []) := by
  unfold stepCheck
  cases h : executeWithTimeout dp r id t <;> simp [h]

theorem foldl_stepCheck_invocations (dp : String → Bool) (r : Registry)
    (t : Nat) (ts : String) (l : List String) (st : RunState) :
    (l.foldl (stepCheck dp r t ts) st).invocations
      = st.invocations ++ l.filter (fun i => invokesCheck r i) := by
  induction l generalizing st with
  | nil => simp
  | cons a l ih =>
    rw [List.foldl_cons, ih, stepCheck_invocations]
    cases h : invokesCheck r a <;>
      simp [h, List.filter_cons, List.append_assoc]

theorem foldl_stepCheck_lookup (dp : String → Bool) (r : Registry) (t : Nat)
    (ts : String) (l : List String) (st : RunState) (k : String) :
    mapLookup (l.foldl (stepCheck dp r t ts) st).results k
      = if k ∈ l then some (storedVal dp r t ts k)
        else mapLookup st.results k := by
  induction l generalizing st with
  | nil => simp
  | cons a l ih =>
    rw [List.foldl_cons, ih, stepCheck_results, mapLookup_mapSet]
    by_cases hl : k ∈ l <;> by_cases hk : k = a <;>
      simp [hl, hk, List.mem_cons]

theorem foldl_stepCheck_keys_mem (dp : String → Bool) (r : Registry) (t : Nat)
    (ts : String) (l : List String) (st : RunState) (k : String) :
    k ∈ mapKeys (l.foldl (stepCheck dp r t ts) st).results
      ↔ k ∈ mapKeys st.results ∨ k ∈ l := by
  rw [← mapLookup_isSome_iff, foldl_stepCheck_lookup]
  by_cases hl : k ∈ l
  · simp [hl]
  · simp [hl, mapLookup_isSome_iff]

theorem foldl_stepCheck_keys_nodup (dp : String → Bool) (r : Registry)
    (t : Nat) (ts : String) (l : List String) (st : RunState)
    (h : (mapKeys st.results).Nodup) :
    (mapKeys (l.foldl (stepCheck dp r t ts) st).results).Nodup := by
  induction l generalizing st with
  | nil => exact h
  | cons a l ih =>
    rw [List.foldl_cons]
    apply ih
    rw [stepCheck_results]
    exact mapKeys_mapSet_nodup h

theorem foldl_stepCheck_results_eq (dp : String → Bool) (r : Registry)
    (t : Nat) (ts : String) (l : List String) (st : RunState)
    (hn : l.Nodup) (hd : ∀ i ∈ l, i ∉ mapKeys st.results) :
    (l.foldl (stepCheck dp r t ts) st).results
      = st.results ++ l.map (fun i => (i, storedVal dp r t ts i)) := by
  induction l generalizing st with
  | nil => simp
  | cons a l ih =>
    rw [List.foldl_cons]
    have hfresh : a ∉ mapKeys st.results := hd a (List.mem_cons_self a l)
    have hstep : (stepCheck dp r t ts st a).results
        = st.results ++ [(a, storedVal dp r t ts a)] := by
      rw [stepCheck_results, mapSet_of_fresh hfresh]
    have hd' : ∀ i ∈ l, i ∉ mapKeys (stepCheck dp r t ts st a).results := by
      intro i hi
      rw [hstep]
      intro hmem
      simp [mapKeys] at hmem
      rcases hmem with hmem | hmem
      · exact hd i (List.mem_cons_of_mem a hi) (by simpa [mapKeys] using hmem)
      · exact (List.nodup_cons.mp hn).1 (hmem ▸ hi)
    rw [ih (stepCheck dp r t ts st a) (List.nodup_cons.mp hn).2 hd', hstep]
    simp

/-! ### Helper lemmas: the sequential loop -/

theorem runSeqLoop_nil (dp : String → Bool) (r : Registry) (o : Options)
    (ts : String) (st : RunState) : runSeqLoop dp r o ts [] st = st := rfl

theorem runSeqLoop_cons (dp : String → Bool) (r : Registry) (o : Options)
    (ts : String) (m : CheckMetadata) (rest : List CheckMetadata)
    (st : RunState) :
    runSeqLoop dp r o ts (m :: rest) st
      = if o.continueOnError = false ∧ st.failures ≠ [] then st
        else runSeqLoop dp r o ts rest (stepCheck dp r o.timeout ts st m.id) := rfl

theorem runSeqLoop_break (dp : String → Bool) (r : Registry) (o : Options)
    (ts : String) (m : CheckMetadata) (rest : List CheckMetadata)
    (st : RunState) (hc : o.continueOnError = false) (hf : st.failures ≠ []) :
    runSeqLoop dp r o ts (m :: rest) st = st := by
  unfold runSeqLoop
  rw [if_pos ⟨hc, hf⟩]

theorem runSeqLoop_eq_foldl (dp : String → Bool) (r : Registry) (o : Options)
    (ts : String) (l : List CheckMetadata) (st : RunState)
    (hc : o.continueOnError = true) :
    runSeqLoop dp r o ts l st
      = (l.map (fun m => m.id)).foldl (stepCheck dp r o.timeout ts) st := by
  induction l generalizing st with
  | nil => rfl
  | cons m rest ih =>
    unfold runSeqLoop
    rw [if_neg (by simp [hc])]
    rw [ih]
    simp

/-! ### Helper lemmas: the registry -/

theorem Registry.get_id {r : Registry} {i : String} {m : CheckMetadata}
    (h : r.get i = some m) : m.id = i := by
  have := List.find?_some h
  simpa using this

theorem Registry.has_true_iff {r : Registry} {i : String} :
    r.has i = true ↔ ∃ m, r.get i = some m := by
  unfold Registry.has
  cases h : r.get i <;> simp

theorem metaLe_trans (a b c : CheckMetadata) (hab : metaLe a b = true)
    (hbc : metaLe b c = true) : metaLe a c = true := by
  simp only [metaLe, decide_eq_true_eq] at hab hbc ⊢
  rcases hab with h1 | ⟨h1, h2⟩ <;> rcases hbc with h3 | ⟨h3, h4⟩
  · exact Or.inl (h1.trans h3)
  · exact Or.inl (h3 ▸ h1)
  · exact Or.inl (h1 ▸ h3)
  · exact Or.inr ⟨h1.trans h3, h2.trans h4⟩

theorem metaLe_total (a b : CheckMetadata) : (metaLe a b || metaLe b a) = true := by
  simp only [metaLe, Bool.or_eq_true, decide_eq_true_eq]
  rcases lt_trichotomy a.priority b.priority with h | h | h
  · exact Or.inl (Or.inl h)
  · rcases le_total a.id b.id with h2 | h2
    · exact Or.inl (Or.inr ⟨h, h2⟩)
    · exact Or.inr (Or.inr ⟨h.symm, h2⟩)
  · exact Or.inr (Or.inl h)

theorem mem_getExecutionOrder_some {r : Registry} {ids : List String}
    {m : CheckMetadata} :
    m ∈ r.getExecutionOrder (some ids)
      ↔ m.enabled = true ∧ ∃ i ∈ ids, r.get i = some m := by
  unfold Registry.getExecutionOrder
  rw [List.mem_mergeSort, List.mem_filter, List.mem_filterMap]
  tauto

theorem mem_getExecutionOrder_none {r : Registry} {m : CheckMetadata} :
    m ∈ r.getExecutionOrder none ↔ m.enabled = true ∧ m ∈ r.checks := by
  unfold Registry.getExecutionOrder
  rw [List.mem_mergeSort, List.mem_filter]
  tauto

theorem getExecutionOrder_sorted (r : Registry) (requested : Option (List String)) :
    (r.getExecutionOrder requested).Pairwise
      (fun a b => a.priority < b.priority ∨ (a.priority = b.priority ∧ a.id ≤ b.id)) := by
  unfold Registry.getExecutionOrder
  have h := @List.sorted_mergeSort CheckMetadata metaLe metaLe_trans metaLe_total
    ((match requested with
      | some ids => ids.filterMap r.get
      | none => r.checks).filter (fun m => m.enabled))
  exact h.imp (fun hab => by simpa [metaLe] using hab)

theorem filterMap_get_map_id {r : Registry} {ids : List String}
    (h : ∀ i ∈ ids, ∃ m, r.get i = some m) :
    (ids.filterMap r.get).map (fun m => m.id) = ids := by
  induction ids with
  | nil => simp
  | cons i t ih =>
    obtain ⟨m, hm⟩ := h i (List.mem_cons_self i t)
    rw [List.filterMap_cons, hm]
    simp only [List.map_cons]
    rw [Registry.get_id hm, ih (fun j hj => h j (List.mem_cons_of_mem i hj))]

theorem getExecutionOrder_ids_perm {r : Registry} {ids : List String}
    (h : ∀ i ∈ ids, ∃ m, r.get i = some m ∧ m.enabled = true) :
    ((r.getExecutionOrder (some ids)).map (fun m => m.id)).Perm ids := by
  unfold Registry.getExecutionOrder
  have h1 : (ids.filterMap r.get).filter (fun m => m.enabled)
      = ids.filterMap r.get := by
    apply List.filter_eq_self.mpr
    intro m hm
    obtain ⟨i, hi, hg⟩ := List.mem_filterMap.mp hm
    obtain ⟨m', hm', he⟩ := h i hi
    rw [hg] at hm'
    simpa [← Option.some.inj hm'] using he
  simp only [h1]
  have h2 := (List.mergeSort_perm (ids.filterMap r.get) metaLe).map
    (fun m => m.id)
  rw [filterMap_get_map_id (fun i hi => ⟨(h i hi).choose, (h i hi).choose_spec.1⟩)] at h2
  exact h2

/-! ### Helper lemmas: summary arithmetic -/

theorem natDiv_eq_round (p t : Nat) (h : 0 < t) :
    (((200 * p + t) / (2 * t) : Nat) : ℤ) = round ((100 * (p : ℚ)) / (t : ℚ)) := by
  have ht : (t : ℚ) ≠ 0 := Nat.cast_ne_zero.mpr h.ne'
  have hx : (100 * (p : ℚ)) / (t : ℚ) + 1 / 2
      = ((200 * p + t : ℕ) : ℚ) / ((2 * t : ℕ) : ℚ) := by
    push_cast
    field_simp
    ring
  rw [round_eq, hx]
  have hnn : (0 : ℚ) ≤ ((200 * p + t : ℕ) : ℚ) / ((2 * t : ℕ) : ℚ) := by positivity
  have hfl : ⌊((200 * p + t : ℕ) : ℚ) / ((2 * t : ℕ) : ℚ)⌋₊
      = (200 * p + t) / (2 * t) := by
    rw [Nat.floor_div_nat, Nat.floor_natCast]
  have h3 : ⌊((200 * p + t : ℕ) : ℚ) / ((2 * t : ℕ) : ℚ)⌋
      = (⌊((200 * p + t : ℕ) : ℚ) / ((2 * t : ℕ) : ℚ)⌋₊ : ℤ) := by
    rw [← Int.floor_toNat]
    exact (Int.toNat_of_nonneg (Int.floor_nonneg.mpr hnn)).symm
  rw [h3, hfl]

theorem statusCounts_sum (rs : List JsValue)
    (h : ∀ v ∈ rs, ∃ st ∈ HEALTH_CHECK_STATUSES, statusIs v st = true) :
    (rs.filter (fun r => statusIs r "pass")).length
      + (rs.filter (fun r => statusIs r "fail")).length
      + (rs.filter (fun r => statusIs r "warn")).length
      + (rs.filter (fun r => statusIs r "skip")).length = rs.length := by
  induction rs with
  | nil => simp
  | cons v t ih =>
    obtain ⟨st, hmem, hst⟩ := h v (List.mem_cons_self v t)
    have ht := ih (fun w hw => h w (List.mem_cons_of_mem v hw))
    simp only [HEALTH_CHECK_STATUSES, List.mem_cons, List.mem_singleton] at hmem
    have hcase : st = "pass" ∨ st = "fail" ∨ st = "warn" ∨ st = "skip" := by
      simpa using hmem
    rcases hcase with rfl | rfl | rfl | rfl
    · have h1 : statusIs v "fail" = false := statusIs_false_of_ne hst (by decide)
      have h2 : statusIs v "warn" = false := statusIs_false_of_ne hst (by decide)
      have h3 : statusIs v "skip" = false := statusIs_false_of_ne hst (by decide)
      simp [List.filter_cons, hst, h1, h2, h3]
      omega
    · have h1 : statusIs v "pass" = false := statusIs_false_of_ne hst (by decide)
      have h2 : statusIs v "warn" = false := statusIs_false_of_ne hst (by decide)
      have h3 : statusIs v "skip" = false := statusIs_false_of_ne hst (by decide)
      simp [List.filter_cons, hst, h1, h2, h3]
      omega
    · have h1 : statusIs v "pass" = false := statusIs_false_of_ne hst (by decide)
      have h2 : statusIs v "fail" = false := statusIs_false_of_ne hst (by decide)
      have h3 : statusIs v "skip" = false := statusIs_false_of_ne hst (by decide)
      simp [List.filter_cons, hst, h1, h2, h3]
      omega
    · have h1 : statusIs v "pass" = false := statusIs_false_of_ne hst (by decide)
      have h2 : statusIs v "fail" = false := statusIs_false_of_ne hst (by decide)
      have h3 : statusIs v "warn" = false := statusIs_false_of_ne hst (by decide)
      simp [List.filter_cons, hst, h1, h2, h3]
      omega

/-! ### Helper lemmas: synthesized error results and timeouts -/

theorem createCheckErrorResult_check (ts id e : String) :
    getStrField (createCheckErrorResult ts id e) "check" = some id := by
  simp [createCheckErrorResult, getStrField, getField, lookupField]

theorem createCheckErrorResult_status (ts id e : String) :
    getStrField (createCheckErrorResult ts id e) "status" = some "fail" := by
  simp [createCheckErrorResult, getStrField, getField, lookupField]

theorem createCheckErrorResult_message (ts id e : String) :
    getStrField (createCheckErrorResult ts id e) "message"
      = some ("Health check execution failed: " ++ e) := by
  simp [createCheckErrorResult, getStrField, getField, lookupField]

theorem executeWithTimeout_hang {r : Registry} {id : String} {m : CheckMetadata}
    (dp : String → Bool) (t : Nat) (hg : r.get id = some m)
    (he : m.enabled = true) (hb : m.behavior = .hangs) :
    executeWithTimeout dp r id t
      = .error ("Health check '" ++ id ++ "' timed out after "
          ++ Nat.repr t ++ "ms") := by
  unfold executeWithTimeout Registry.execute
  rw [hg]
  simp [he, hb]

/-- Unfolding equation for `runHealthChecksT` (pure zeta-expansion of its
let-bindings). -/
theorem runHealthChecksT_eq (dp : String → Bool) (r : Registry)
    (pv : ProviderInfo) (ts : String) (elapsed : Nat) (u : UserOptions) :
    runHealthChecksT dp r pv ts elapsed u
      = if (selectChecksToRun r (mergeOptions u)).isEmpty
        then (createEmptyReport pv ts, [])
        else
          (generateReport pv ts elapsed
            (if (mergeOptions u).parallel then
              runChecksInParallel dp r (mergeOptions u).timeout ts
                (selectChecksToRun r (mergeOptions u)) initState
             else
              runChecksSequentially dp r (mergeOptions u) ts
                (selectChecksToRun r (mergeOptions u)) initState),
           (if (mergeOptions u).parallel then
              runChecksInParallel dp r (mergeOptions u).timeout ts
                (selectChecksToRun r (mergeOptions u)) initState
             else
              runChecksSequentially dp r (mergeOptions u) ts
                (selectChecksToRun r (mergeOptions u)) initState).invocations) := rfl

/-! ### Claim theorems -/

/-- C7: for every fixed set of registered checks, `getExecutionOrder` (with
or without a `requestedIds` subset) returns only enabled checks, silently
dropping requested ids that are not registered, sorted ascending with
priority as the primary key and id as the tie-break — a lower-priority check
always precedes a higher-priority one regardless of id, and equal-priority
checks are ordered by id ascending — giving a total, deterministic order. -/
theorem claim7_execution_order_sorted (r : Registry) (ids : List String) :
    ((r.getExecutionOrder (some ids)).Pairwise
      (fun a b => a.priority < b.priority ∨ (a.priority = b.priority ∧ a.id ≤ b.id))) ∧
    (∀ m, m ∈ r.getExecutionOrder (some ids)
      ↔ m.enabled = true ∧ ∃ i ∈ ids, r.get i = some m) ∧
    ((r.getExecutionOrder none).Pairwise
      (fun a b => a.priority < b.priority ∨ (a.priority = b.priority ∧ a.id ≤ b.id))) ∧
    (∀ m, m ∈ r.getExecutionOrder none ↔ m.enabled = true ∧ m ∈ r.checks) :=
  ⟨getExecutionOrder_sorted r (some ids),
   fun _ => mem_getExecutionOrder_some,
   getExecutionOrder_sorted r none,
   fun _ => mem_getExecutionOrder_none⟩

/-- C8: `calculateSummary(results)` returns a summary whose `total` is the
array length, whose `passed`/`failed`/`warnings`/`skipped` are the counts of
results with status pass/fail/warn/skip, with
`total = passed+failed+warnings+skipped` (for results carrying one of the
four statuses), whose `score` is `round(passed/total*100)` (0 when
`total = 0`), whose `hasErrors`/`hasWarnings` hold iff `failed > 0` /
`warnings > 0`; a non-array input raises the validation error.  The function
is pure (a Lean function cannot mutate its argument), which models "the input
array is never mutated". -/
theorem claim8_summary_stats (rs : List JsValue) :
    calculateSummary (.varr rs) = .ok (calcCore rs) ∧
    (calcCore rs).total = rs.length ∧
    (calcCore rs).passed = (rs.filter (fun r => statusIs r "pass")).length ∧
    (calcCore rs).failed = (rs.filter (fun r => statusIs r "fail")).length ∧
    (calcCore rs).warnings = (rs.filter (fun r => statusIs r "warn")).length ∧
    (calcCore rs).skipped = (rs.filter (fun r => statusIs r "skip")).length ∧
    ((∀ v ∈ rs, ∃ st ∈ HEALTH_CHECK_STATUSES, statusIs v st = true) →
      (calcCore rs).passed + (calcCore rs).failed + (calcCore rs).warnings
        + (calcCore rs).skipped = (calcCore rs).total) ∧
    (0 < (calcCore rs).total →
      (((calcCore rs).score : ℤ)
        = round ((100 * ((calcCore rs).passed : ℚ)) / ((calcCore rs).total : ℚ)))) ∧
    ((calcCore rs).total = 0 → (calcCore rs).score = 0) ∧
    ((calcCore rs).hasErrors = true ↔ 0 < (calcCore rs).failed) ∧
    ((calcCore rs).hasWarnings = true ↔ 0 < (calcCore rs).warnings) ∧
    (∀ v : JsValue, (∀ l, v ≠ .varr l) →
      calculateSummary v = .error "Results must be an array") := by
  refine ⟨rfl, rfl, rfl, rfl, rfl, rfl, ?_, ?_, ?_, ?_, ?_, ?_⟩
  · intro h
    exact statusCounts_sum rs h
  · intro hpos
    have hpos' : 0 < rs.length := hpos
    have h := natDiv_eq_round (rs.filter (fun r => statusIs r "pass")).length
      rs.length hpos'
    show ((if 0 < rs.length then
        (200 * (rs.filter (fun r => statusIs r "pass")).length + rs.length)
          / (2 * rs.length) else 0 : ℕ) : ℤ) = _
    rw [if_pos hpos']
    exact h
  · intro h0
    have h0' : rs.length = 0 := h0
    show ((if 0 < rs.length then
        (200 * (rs.filter (fun r => statusIs r "pass")).length + rs.length)
          / (2 * rs.length) else 0 : ℕ)) = 0
    rw [if_neg (by omega : ¬ 0 < rs.length)]
  · exact decide_eq_true_iff
  · exact decide_eq_true_iff
  · intro v hv
    cases v with
    | varr l => exact absurd rfl (hv l)
    | vnull => rfl
    | vbool b => rfl
    | vnum n => rfl
    | vstr s => rfl
    | vobj fs => rfl

/-- Witness for C8 at concrete inputs: two passes and two fails give
`2+2+0+0 = 4` and score `50`; a string input is rejected. -/
theorem claim8_witness :
    ((calcCore [passResult "a", passResult "b", failResult "c", failResult "d"]).passed
        + (calcCore [passResult "a", passResult "b", failResult "c", failResult "d"]).failed
        + (calcCore [passResult "a", passResult "b", failResult "c", failResult "d"]).warnings
        + (calcCore [passResult "a", passResult "b", failResult "c", failResult "d"]).skipped
      = (calcCore [passResult "a", passResult "b", failResult "c", failResult "d"]).total) ∧
    (((calcCore [passResult "a", passResult "b", failResult "c", failResult "d"]).score : ℤ)
      = round ((100 * ((calcCore [passResult "a", passResult "b", failResult "c", failResult "d"]).passed : ℚ))
          / ((calcCore [passResult "a", passResult "b", failResult "c", failResult "d"]).total : ℚ))) ∧
    calculateSummary (.vstr "nope") = .error "Results must be an array" := by
  obtain ⟨-, -, -, -, -, -, hsum, hscore, -, -, -, herr⟩ :=
    claim8_summary_stats [passResult "a", passResult "b", failResult "c", failResult "d"]
  refine ⟨hsum ?_, hscore ?_, herr _ ?_⟩
  · decide
  · decide
  · intro l h
    cases h

/-- C6: `Registry.execute` always yields either a valid result or a typed
error: "not registered" for unregistered ids, "disabled" for disabled ids,
an "invalid result" error (wrapped in the `Failed to execute` prefix) when
the plug-in's return value fails the shape validation, and, when the plug-in
itself throws, an error carrying the original message; whenever it settles
successfully the value passed `isValidHealthCheckResult`. -/
theorem claim6_execute_typed (dp : String → Bool) (r : Registry) (id : String)
    (m : CheckMetadata) (v : JsValue) (msg : String) :
    (r.get id = none →
      Registry.execute dp r id
        = .thrown ("Health check '" ++ id ++ "' is not registered")) ∧
    (r.get id = some m → m.enabled = false →
      Registry.execute dp r id
        = .thrown ("Health check '" ++ id ++ "' is disabled")) ∧
    (r.get id = some m → m.enabled = true → m.behavior = .returns v →
      isValidHealthCheckResult dp v = false →
      Registry.execute dp r id
        = .thrown ("Failed to execute health check '" ++ id ++ "': " ++
            ("Health check '" ++ id ++ "' returned invalid result structure"))) ∧
    (r.get id = some m → m.enabled = true → m.behavior = .throws msg →
      Registry.execute dp r id
        = .thrown ("Failed to execute health check '" ++ id ++ "': " ++ msg)) ∧
    (∀ w, Registry.execute dp r id = .settled w →
      isValidHealthCheckResult dp w = true) := by
  refine ⟨?_, ?_, ?_, ?_, ?_⟩
  · intro h
    unfold Registry.execute
    rw [h]
  · intro h he
    unfold Registry.execute
    rw [h]
    simp [he]
  · intro h he hb hv
    unfold Registry.execute
    rw [h]
    simp [he, hb, hv]
  · intro h he hb
    unfold Registry.execute
    rw [h]
    simp [he, hb]
  · intro w hw
    unfold Registry.execute at hw
    cases hg : r.get id with
    | none =>
      rw [hg] at hw
      exact absurd hw (by simp)
    | some m' =>
      rw [hg] at hw
      dsimp only at hw
      by_cases he : m'.enabled
      · rw [if_pos he] at hw
        cases hb : m'.behavior with
        | hangs => rw [hb] at hw; exact absurd hw (by simp)
        | throws e => rw [hb] at hw; exact absurd hw (by simp)
        | returns v' =>
          rw [hb] at hw
          dsimp only at hw
          by_cases hv : isValidHealthCheckResult dp v'
          · rw [if_pos hv] at hw
            cases hw
            exact hv
          · rw [if_neg hv] at hw
            exact absurd hw (by simp)
      · rw [if_neg he] at hw
        exact absurd hw (by simp)

/-- Witness for C6 at concrete inputs: an empty registry rejects id `x` as
not registered; a disabled check is rejected as disabled; a check returning
an object missing `status` is rejected as invalid; a throwing check's error
carries the original message. -/
theorem claim6_witness :
    (Registry.execute dpAll
        { checks := [], categories := ["general"], autoDiscovered := true } "x"
      = .thrown ("Health check '" ++ "x" ++ "' is not registered")) ∧
    (Registry.execute dpAll
        { checks := [{ mkCheck "d" 100 (.returns (passResult "d")) with enabled := false }],
          categories := ["general"], autoDiscovered := true } "d"
      = .thrown ("Health check '" ++ "d" ++ "' is disabled")) ∧
    (Registry.execute dpAll
        { checks := [mkCheck "i" 100 (.returns (.vobj [("check", .vstr "i")]))],
          categories := ["general"], autoDiscovered := true } "i"
      = .thrown ("Failed to execute health check '" ++ "i" ++ "': " ++
          ("Health check '" ++ "i" ++ "' returned invalid result structure"))) ∧
    (Registry.execute dpAll
        { checks := [mkCheck "t" 100 (.throws "boom")],
          categories := ["general"], autoDiscovered := true } "t"
      = .thrown ("Failed to execute health check '" ++ "t" ++ "': " ++ "boom")) := by
  refine ⟨?_, ?_, ?_, ?_⟩
  · exact (claim6_execute_typed dpAll _ "x" (mkCheck "x" 0 .hangs) .vnull "m").1 rfl
  · exact (claim6_execute_typed dpAll _ "d"
      { mkCheck "d" 100 (.returns (passResult "d")) with enabled := false }
      .vnull "m").2.1 rfl rfl
  · exact (claim6_execute_typed dpAll _ "i"
      (mkCheck "i" 100 (.returns (.vobj [("check", .vstr "i")])))
      (.vobj [("check", .vstr "i")]) "m").2.2.1 rfl rfl rfl rfl
  · exact (claim6_execute_typed dpAll _ "t" (mkCheck "t" 100 (.throws "boom"))
      .vnull "boom").2.2.2.1 rfl rfl rfl

/-- C10: the registry's category set only grows: `register` adds the check's
category, `unregister` never removes one, and only `clear()` resets it to
`{'general'}`; after unregistering the last check of a category, the
category is still listed by `getCategories` while `getByCategory` returns an
empty list for it. -/
theorem claim10_categories_only_grow (r r' : Registry) (m : CheckMetadata)
    (id : String) :
    ((r.unregister id).2.getCategories = r.getCategories) ∧
    ((r.clear).getCategories = ["general"]) ∧
    (r.register m = .ok r' →
      m.category ∈ r'.getCategories
        ∧ ∀ c ∈ r.getCategories, c ∈ r'.getCategories) ∧
    (r.register m = .ok r' → r.getByCategory m.category = [] →
      m.category ∈ (r'.unregister m.id).2.getCategories
        ∧ (r'.unregister m.id).2.getByCategory m.category = []) := by
  have hreg : ∀ r'', r.register m = .ok r'' →
      r''.checks = r.checks ++ [m]
        ∧ r''.categories
            = (if r.categories.contains m.category then r.categories
               else r.categories ++ [m.category])
        ∧ r.has m.id = false := by
    intro r'' h
    unfold Registry.register at h
    cases hv : validateMetadata m with
    | some e => rw [hv] at h; exact absurd h (by simp)
    | none =>
      rw [hv] at h
      by_cases hh : r.has m.id
      · rw [if_pos hh] at h
        exact absurd h (by simp)
      · rw [if_neg hh] at h
        have := Except.ok.inj h
        refine ⟨?_, ?_, by simpa using hh⟩
        · rw [← this]
        · rw [← this]
  refine ⟨rfl, rfl, ?_, ?_⟩
  · intro h
    obtain ⟨-, hcat, -⟩ := hreg r' h
    unfold Registry.getCategories
    rw [hcat]
    constructor
    · by_cases hc : r.categories.contains m.category
      · rw [if_pos hc]
        simpa using hc
      · rw [if_neg hc]
        simp
    · intro c hc
      by_cases hcc : r.categories.contains m.category
      · rwa [if_pos hcc]
      · rw [if_neg hcc]
        exact List.mem_append_left _ hc
  · intro h hempty
    obtain ⟨hch, hcat, hhas⟩ := hreg r' h
    have hnotin : ∀ x ∈ r.checks, (x.id == m.id) = false := by
      intro x hx
      have := List.find?_eq_none.mp (by
        unfold Registry.has at hhas
        unfold Registry.get at hhas
        cases hfind : r.checks.find? (fun c => c.id == m.id) with
        | none => rfl
        | some c => rw [hfind] at hhas; simp at hhas) x hx
      simpa using this
    have hfilter : r.checks.filter (fun c => c.id != m.id) = r.checks := by
      apply List.filter_eq_self.mpr
      intro x hx
      simpa using hnotin x hx
    have hch2 : (r'.unregister m.id).2.checks = r.checks := by
      show r'.checks.filter (fun c => c.id != m.id) = r.checks
      rw [hch, List.filter_append, hfilter]
      simp
    constructor
    · show m.category ∈ r'.categories
      rw [hcat]
      by_cases hc : r.categories.contains m.category
      · rw [if_pos hc]
        simpa using hc
      · rw [if_neg hc]
        simp
    · show (r'.unregister m.id).2.checks.filter (fun c => c.category == m.category) = []
      rw [hch2]
      exact hempty

/-- Witness for C10 at a concrete input: registering a fresh check of a new
category `cat` into the one-check registry and unregistering it leaves `cat`
listed with no members. -/
theorem claim10_witness :
    ((R1.unregister "a").2.getCategories = R1.getCategories) ∧
    ("cat" ∈
        (({ checks := [mA, { mkCheck "z" 100 .hangs with category := "cat" }],
            categories := ["general", "cat"],
            autoDiscovered := true } : Registry).unregister "z").2.getCategories
      ∧ (({ checks := [mA, { mkCheck "z" 100 .hangs with category := "cat" }],
            categories := ["general", "cat"],
            autoDiscovered := true } : Registry).unregister "z").2.getByCategory "cat"
          = []) := by
  refine ⟨(claim10_categories_only_grow R1 R1 mA "a").1, ?_⟩
  have h := (claim10_categories_only_grow R1
      { checks := [mA, { mkCheck "z" 100 .hangs with category := "cat" }],
        categories := ["general", "cat"], autoDiscovered := true }
      { mkCheck "z" 100 .hangs with category := "cat" } "a").2.2.2
  exact h rfl rfl

/-- C1: `runHealthChecks` always returns a Report and never raises: the
function realizing the try/catch control flow is total over arbitrary step
outcomes, and whenever the selection, execution, or report-assembly step
throws, the returned Report is `createErrorReport` over the results
collected so far, which carries the top-level
`error: {message, type: 'orchestration'}` field. -/
theorem claim1_orchestration_contained (pv : ProviderInfo) (ts : String)
    (selectStep : Except String (List String))
    (execStep : List String → RunState × Option String)
    (genStep : RunState → Except String Report) :
    (∀ e, selectStep = .error e →
      runHealthChecksCatch pv ts selectStep execStep genStep
        = createErrorReport pv ts initState e) ∧
    (∀ sel st e, selectStep = .ok sel → sel ≠ [] → execStep sel = (st, some e) →
      runHealthChecksCatch pv ts selectStep execStep genStep
        = createErrorReport pv ts st e) ∧
    (∀ sel st e, selectStep = .ok sel → sel ≠ [] → execStep sel = (st, none) →
      genStep st = .error e →
      runHealthChecksCatch pv ts selectStep execStep genStep
        = createErrorReport pv ts st e) ∧
    (∀ sel st rep, selectStep = .ok sel → sel ≠ [] → execStep sel = (st, none) →
      genStep st = .ok rep →
      runHealthChecksCatch pv ts selectStep execStep genStep = rep) ∧
    (selectStep = .ok [] →
      runHealthChecksCatch pv ts selectStep execStep genStep
        = createEmptyReport pv ts) ∧
    (∀ st e, (createErrorReport pv ts st e).error
        = some { message := e, type := "orchestration" }
      ∧ (createErrorReport pv ts st e).results = mapValues st.results) := by
  have hok : ∀ sel, runHealthChecksCatch pv ts (.ok sel) execStep genStep
      = if sel.isEmpty then createEmptyReport pv ts
        else match execStep sel with
          | (st, some e) => createErrorReport pv ts st e
          | (st, none) =>
            match genStep st with
            | .error e => createErrorReport pv ts st e
            | .ok rep => rep := fun sel => rfl
  refine ⟨?_, ?_, ?_, ?_, ?_, fun st e => ⟨rfl, rfl⟩⟩
  · intro e h
    rw [h]
    rfl
  · intro sel st e hsel hne hexec
    rw [hsel, hok, if_neg (by simp [hne]), hexec]
  · intro sel st e hsel hne hexec hgen
    rw [hsel, hok, if_neg (by simp [hne]), hexec]
    dsimp only
    rw [hgen]
  · intro sel st rep hsel hne hexec hgen
    rw [hsel, hok, if_neg (by simp [hne]), hexec]
    dsimp only
    rw [hgen]
  · intro h
    rw [h]
    rfl

/-- Witness for C1 at a concrete input: a throwing selection step yields the
degraded report with the orchestration error field, not an exception. -/
theorem claim1_witness :
    runHealthChecksCatch pv1 "T" (.error "boom")
        (fun _ => (initState, none))
        (fun st => .ok (generateReport pv1 "T" 0 st))
      = createErrorReport pv1 "T" initState "boom" ∧
    (createErrorReport pv1 "T" initState "boom").error
      = some { message := "boom", type := "orchestration" } ∧
    (createErrorReport pv1 "T" initState "boom").results = [] := by
  obtain ⟨h1, -, -, -, -, h6⟩ := claim1_orchestration_contained pv1 "T"
    (.error "boom") (fun _ => (initState, none))
    (fun st => .ok (generateReport pv1 "T" 0 st))
  exact ⟨h1 "boom" rfl, (h6 initState "boom").1, (h6 initState "boom").2⟩

/-- C2 counterexample: the claim asserts that
`runHealthChecks(provider, {checks: []})` returns a Report with
`summary.total = 0` and no check invoked, but the source's guard
`options.checks && options.checks.length > 0` treats an empty list as "no
explicit selection" and falls back to running every enabled registered
check: against the one-check registry `R1`, the run returns `total = 1` and
the check `a` is invoked. -/
theorem claim2_counterexample :
    (runHealthChecksT dpAll R1 pv1 "T" 0 { checks := some [] }).1.summary.total = 1 ∧
    (runHealthChecksT dpAll R1 pv1 "T" 0 { checks := some [] }).2 = ["a"] := by
  have h1 : R1.getExecutionOrder none = [mA] := by
    show (R1.checks.filter (fun m => m.enabled)).mergeSort metaLe = [mA]
    rw [show R1.checks.filter (fun m => m.enabled) = [mA] from rfl]
    exact List.mergeSort_of_sorted (by simp)
  have h2 : R1.getExecutionOrder (some ["a"]) = [mA] := by
    show ((["a"].filterMap R1.get).filter (fun m => m.enabled)).mergeSort metaLe = [mA]
    rw [show (["a"].filterMap R1.get).filter (fun m => m.enabled) = [mA] from rfl]
    exact List.mergeSort_of_sorted (by simp)
  have hsel : selectChecksToRun R1 (mergeOptions { checks := some [] }) = ["a"] := by
    show (R1.getExecutionOrder none).map (fun m => m.id) = ["a"]
    rw [h1]
    rfl
  rw [runHealthChecksT_eq, hsel]
  rw [if_neg (by simp)]
  rw [show (mergeOptions { checks := some ([] : List String) }).parallel = false from rfl]
  rw [if_neg (by simp)]
  unfold runChecksSequentially
  rw [h2]
  constructor
  · rfl
  · rfl

/-- C2 (amended): `runHealthChecks(provider, {checks: []})` treats the empty
list as "no explicit selection" and falls back to the categories filter or
to all enabled registered checks; a `categories` filter matching no
registered check — or a non-empty `checks` list containing only unregistered
ids — returns a Report with `summary.total = 0`, empty results, and no check
function (hence no provider operation) invoked. -/
theorem claim2_empty_selection (dp : String → Bool) (r : Registry)
    (pv : ProviderInfo) (ts : String) (elapsed : Nat) (cats l : List String) :
    (cats ≠ [] → (∀ c ∈ cats, r.getByCategory c = []) →
      (runHealthChecksT dp r pv ts elapsed { categories := some cats }).1
          = createEmptyReport pv ts
        ∧ (runHealthChecksT dp r pv ts elapsed { categories := some cats }).2 = []) ∧
    (l ≠ [] → (∀ i ∈ l, r.has i = false) →
      (runHealthChecksT dp r pv ts elapsed { checks := some l }).1
          = createEmptyReport pv ts
        ∧ (runHealthChecksT dp r pv ts elapsed { checks := some l }).2 = []) ∧
    (createEmptyReport pv ts).summary.total = 0 ∧
    (createEmptyReport pv ts).results = [] := by
  refine ⟨?_, ?_, rfl, rfl⟩
  · intro hne hcat
    cases cats with
    | nil => exact absurd rfl hne
    | cons c cs =>
      have hsel : selectChecksToRun r
          (mergeOptions { categories := some (c :: cs) }) = [] := by
        show ((c :: cs).flatMap
            (fun cat => (r.getByCategory cat).map (fun m => m.id))).eraseDups = []
        rw [List.flatMap_eq_nil_iff.mpr ?_]
        · rfl
        · intro x hx
          rw [hcat x hx]
          rfl
      rw [runHealthChecksT_eq, hsel]
      exact ⟨rfl, rfl⟩
  · intro hne hl
    cases l with
    | nil => exact absurd rfl hne
    | cons c cs =>
      have hsel : selectChecksToRun r
          (mergeOptions { checks := some (c :: cs) }) = [] := by
        show (c :: cs).filter (fun i => r.has i) = []
        exact List.filter_eq_nil_iff.mpr (fun i hi => by rw [hl i hi]; simp)
      rw [runHealthChecksT_eq, hsel]
      exact ⟨rfl, rfl⟩

/-- Witness for the amended C2 at concrete inputs: a categories filter
matching nothing on `R1` (and a checks list of only unregistered ids) yields
the empty report with no invocation. -/
theorem claim2_witness :
    ((runHealthChecksT dpAll R1 pv1 "T" 0 { categories := some ["nope"] }).1
        = createEmptyReport pv1 "T"
      ∧ (runHealthChecksT dpAll R1 pv1 "T" 0 { categories := some ["nope"] }).2 = []) ∧
    ((runHealthChecksT dpAll R1 pv1 "T" 0 { checks := some ["zz"] }).1
        = createEmptyReport pv1 "T"
      ∧ (runHealthChecksT dpAll R1 pv1 "T" 0 { checks := some ["zz"] }).2 = []) := by
  obtain ⟨hcats, hchecks, -, -⟩ :=
    claim2_empty_selection dpAll R1 pv1 "T" 0 ["nope"] ["zz"]
  refine ⟨hcats (by simp) ?_, hchecks (by simp) ?_⟩
  · intro c hc
    simp only [List.mem_singleton] at hc
    subst hc
    rfl
  · intro i hi
    simp only [List.mem_singleton] at hi
    subst hi
    rfl

/-- C3: in sequential mode with `continueOnError = false`, for checks in
execution order `[A, B, C]` where `A` resolves `pass` and `B` resolves
`fail`, the Report contains exactly the results of `A` and `B` and `C`'s
check function is never invoked (and `C` is not marked skipped — it simply
contributes no result); more generally, the loop stops before each check as
soon as at least one prior failure has been recorded. -/
theorem claim3_stop_on_first_failure :
    (∀ (dp : String → Bool) (r : Registry) (o : Options) (ts : String)
        (m : CheckMetadata) (rest : List CheckMetadata) (st : RunState),
      o.continueOnError = false → st.failures ≠ [] →
      runSeqLoop dp r o ts (m :: rest) st = st) ∧
    (∀ (dp : String → Bool) (r : Registry) (pv : ProviderInfo) (ts : String)
        (elapsed : Nat) (l : List String) (A B C : CheckMetadata)
        (rA rB : JsValue),
      r.getExecutionOrder (some (l.filter (fun i => r.has i))) = [A, B, C] →
      A.id ≠ B.id →
      executeWithTimeout dp r A.id 30000 = .ok rA →
      statusIs rA "pass" = true →
      executeWithTimeout dp r B.id 30000 = .ok rB →
      statusIs rB "fail" = true →
      (runHealthChecksT dp r pv ts elapsed
          { checks := some l, continueOnError := some false }).1.results
        = [rA, rB]
      ∧ (runHealthChecksT dp r pv ts elapsed
          { checks := some l, continueOnError := some false }).2
        = [A.id, B.id]) := by
  constructor
  · intro dp r o ts m rest st hc hf
    exact runSeqLoop_break dp r o ts m rest st hc hf
  · intro dp r pv ts elapsed l A B C rA rB hord hAB hA hApass hB hBfail
    have hexecnil : r.getExecutionOrder (some ([] : List String)) = [] := by
      show ((([] : List String).filterMap r.get).filter
          (fun m => m.enabled)).mergeSort metaLe = []
      rw [show (([] : List String).filterMap r.get).filter
          (fun m => m.enabled) = [] from rfl]
      exact List.mergeSort_of_sorted (by simp)
    have hlne : l ≠ [] := by
      intro h
      subst h
      rw [show (([] : List String).filter (fun i => r.has i)) = [] from rfl,
        hexecnil] at hord
      cases hord
    obtain ⟨c, cs, rfl⟩ : ∃ c cs, l = c :: cs := by
      cases l with
      | nil => exact absurd rfl hlne
      | cons c cs => exact ⟨c, cs, rfl⟩
    have hselne : (c :: cs).filter (fun i => r.has i) ≠ [] := by
      intro h
      rw [h, hexecnil] at hord
      cases hord
    have hAmem : A ∈ r.getExecutionOrder
        (some ((c :: cs).filter (fun i => r.has i))) := by
      rw [hord]; simp
    have hBmem : B ∈ r.getExecutionOrder
        (some ((c :: cs).filter (fun i => r.has i))) := by
      rw [hord]; simp
    obtain ⟨heA, iA, hiA, hgA⟩ := mem_getExecutionOrder_some.mp hAmem
    obtain ⟨heB, iB, hiB, hgB⟩ := mem_getExecutionOrder_some.mp hBmem
    have hgetA : r.get A.id = some A := by rw [Registry.get_id hgA]; exact hgA
    have hgetB : r.get B.id = some B := by rw [Registry.get_id hgB]; exact hgB
    have hinvA : invokesCheck r A.id = true := by
      unfold invokesCheck
      rw [hgetA]
      exact heA
    have hinvB : invokesCheck r B.id = true := by
      unfold invokesCheck
      rw [hgetB]
      exact heB
    have hstep1 : stepCheck dp r 30000 ts initState A.id
        = { results := [(A.id, rA)], failures := [], invocations := [A.id] } := by
      unfold stepCheck
      rw [hA]
      dsimp only
      rw [statusIs_false_of_ne hApass (by decide), hinvA]
      simp [initState, mapSet]
    have hstep2 : stepCheck dp r 30000 ts
          { results := [(A.id, rA)], failures := [], invocations := [A.id] } B.id
        = { results := [(A.id, rA), (B.id, rB)], failures := [B.id],
            invocations := [A.id, B.id] } := by
      unfold stepCheck
      rw [hB]
      dsimp only
      rw [hBfail, hinvB]
      have hfresh : B.id ∉ mapKeys [(A.id, rA)] := by
        simp [mapKeys]
        exact fun h => hAB h.symm
      rw [mapSet_of_fresh hfresh]
      simp
    have hto : (mergeOptions
        { checks := some (c :: cs), continueOnError := some false }).timeout
          = 30000 := rfl
    have hpar : (mergeOptions
        { checks := some (c :: cs), continueOnError := some false }).parallel
          = false := rfl
    have hloop : runSeqLoop dp r
          (mergeOptions { checks := some (c :: cs), continueOnError := some false })
          ts [A, B, C] initState
        = { results := [(A.id, rA), (B.id, rB)], failures := [B.id],
            invocations := [A.id, B.id] } := by
      rw [runSeqLoop_cons, if_neg (by simp [initState]), hto, hstep1]
      rw [runSeqLoop_cons, if_neg (by simp), hto, hstep2]
      rw [runSeqLoop_cons, if_pos ⟨rfl, by simp⟩]
    have hsel : selectChecksToRun r
        (mergeOptions { checks := some (c :: cs), continueOnError := some false })
          = (c :: cs).filter (fun i => r.has i) := rfl
    rw [runHealthChecksT_eq, hsel,
      if_neg (fun h => hselne (List.isEmpty_iff.mp h)), hpar,
      if_neg (by simp)]
    unfold runChecksSequentially
    rw [hord, hloop]
    exact ⟨rfl, rfl⟩

/-- Witness for C3 at a concrete input: in the three-check registry `R3`
(`a` passes, `b` fails, `c` passes, execution order `[a, b, c]`), running
with `continueOnError = false` yields exactly the results of `a` and `b`,
and `c` is never invoked. -/
theorem claim3_witness :
    (runHealthChecksT dpAll R3 pv1 "T" 0
        { checks := some ["a", "b", "c"], continueOnError := some false }).1.results
      = [passResult "a", failResult "b"] ∧
    (runHealthChecksT dpAll R3 pv1 "T" 0
        { checks := some ["a", "b", "c"], continueOnError := some false }).2
      = ["a", "b"] := by
  have hord : R3.getExecutionOrder
      (some (["a", "b", "c"].filter (fun i => R3.has i)))
        = [mPassA, mFailB, mPassC] := by
    show (((["a", "b", "c"].filter (fun i => R3.has i)).filterMap R3.get).filter
        (fun m => m.enabled)).mergeSort metaLe = _
    rw [show ((["a", "b", "c"].filter (fun i => R3.has i)).filterMap R3.get).filter
        (fun m => m.enabled) = [mPassA, mFailB, mPassC] from rfl]
    exact List.mergeSort_of_sorted (by decide)
  have h := claim3_stop_on_first_failure.2 dpAll R3 pv1 "T" 0 ["a", "b", "c"]
    mPassA mFailB mPassC (passResult "a") (failResult "b") hord (by decide)
    rfl rfl rfl rfl
  exact ⟨h.1, h.2⟩

/-- C4: in parallel mode each selected (registered) check contributes
exactly one result, and the Report's `results` array equals, in order, the
dispatch order of the selected id list — the embedding collects the
`Promise.allSettled` outcomes in input order, independently of settle order,
so the run is a deterministic function of the dispatch list; a failing check
among them makes `summary.hasErrors` true. -/
theorem claim4_parallel_dispatch_order (dp : String → Bool) (r : Registry)
    (pv : ProviderInfo) (ts : String) (elapsed : Nat) (l : List String)
    (hne : l ≠ []) (hnd : (l.filter (fun i => r.has i)).Nodup) :
    (runHealthChecksT dp r pv ts elapsed
        { checks := some l, parallel := some true }).1.results
      = (l.filter (fun i => r.has i)).map (fun i => storedVal dp r 30000 ts i) ∧
    ((∃ b ∈ l.filter (fun i => r.has i),
        statusIs (storedVal dp r 30000 ts b) "fail" = true) →
      (runHealthChecksT dp r pv ts elapsed
        { checks := some l, parallel := some true }).1.summary.hasErrors = true) := by
  obtain ⟨c, cs, rfl⟩ : ∃ c cs, l = c :: cs := by
    cases l with
    | nil => exact absurd rfl hne
    | cons c cs => exact ⟨c, cs, rfl⟩
  have hsel : selectChecksToRun r
      (mergeOptions { checks := some (c :: cs), parallel := some true })
        = (c :: cs).filter (fun i => r.has i) := rfl
  by_cases hempty : (c :: cs).filter (fun i => r.has i) = []
  · rw [runHealthChecksT_eq, hsel, hempty,
      if_pos (show ([] : List String).isEmpty = true from rfl)]
    constructor
    · rfl
    · rintro ⟨b, hb, -⟩
      exact absurd hb (List.not_mem_nil b)
  · have hto : (mergeOptions
        { checks := some (c :: cs), parallel := some true }).timeout = 30000 := rfl
    have hpar : (mergeOptions
        { checks := some (c :: cs), parallel := some true }).parallel = true := rfl
    have hres : (runChecksInParallel dp r 30000 ts
          ((c :: cs).filter (fun i => r.has i)) initState).results
        = ((c :: cs).filter (fun i => r.has i)).map
            (fun i => (i, storedVal dp r 30000 ts i)) := by
      unfold runChecksInParallel
      rw [foldl_stepCheck_results_eq dp r 30000 ts _ initState hnd
        (fun i _ => by simp [initState, mapKeys])]
      simp [initState]
    have hmv : mapValues (((c :: cs).filter (fun i => r.has i)).map
          (fun i => (i, storedVal dp r 30000 ts i)))
        = ((c :: cs).filter (fun i => r.has i)).map
            (fun i => storedVal dp r 30000 ts i) := by
      simp [mapValues]
    rw [runHealthChecksT_eq, hsel,
      if_neg (fun h => hempty (List.isEmpty_iff.mp h)), hpar, if_pos rfl, hto]
    constructor
    · show mapValues (runChecksInParallel dp r 30000 ts
          ((c :: cs).filter (fun i => r.has i)) initState).results = _
      rw [hres, hmv]
    · rintro ⟨b, hb, hfail⟩
      show decide (0 < ((mapValues (runChecksInParallel dp r 30000 ts
          ((c :: cs).filter (fun i => r.has i)) initState).results).filter
            (fun r => statusIs r "fail")).length) = true
      rw [hres, hmv]
      have hmem : storedVal dp r 30000 ts b
          ∈ ((c :: cs).filter (fun i => r.has i)).map
              (fun i => storedVal dp r 30000 ts i) :=
        List.mem_map_of_mem _ hb
      exact decide_eq_true
        (List.length_pos_of_mem (List.mem_filter.mpr ⟨hmem, hfail⟩))

/-- Witness for C4 at a concrete input: the two-check registry `R2` run in
parallel yields both results in dispatch order with `hasErrors = true`. -/
theorem claim4_witness :
    (runHealthChecksT dpAll R2 pv1 "T" 0
        { checks := some ["a", "b"], parallel := some true }).1.results
      = [passResult "a", failResult "b"] ∧
    (runHealthChecksT dpAll R2 pv1 "T" 0
        { checks := some ["a", "b"], parallel := some true }).1.summary.hasErrors
      = true := by
  have h := claim4_parallel_dispatch_order dpAll R2 pv1 "T" 0 ["a", "b"]
    (by simp) (by decide)
  refine ⟨?_, h.2 ⟨"b", by decide, by decide⟩⟩
  rw [h.1]
  rfl

/-- C5: a selected, registered, enabled check whose check function never
settles, run under `runHealthChecks` with `timeout = 50`, contributes a
result with status `fail` for that check whose message contains the text
`"timed out after 50ms"` — the timer rejection wins the race and is
converted into a fail result instead of blocking the run. -/
theorem claim5_timeout_to_fail (dp : String → Bool) (r : Registry)
    (pv : ProviderInfo) (ts : String) (elapsed : Nat) (l : List String)
    (id : String) (m : CheckMetadata)
    (hg : r.get id = some m) (he : m.enabled = true)
    (hb : m.behavior = .hangs) (hin : id ∈ l) :
    ∃ v ∈ (runHealthChecksT dp r pv ts elapsed
        { checks := some l, timeout := some 50 }).1.results,
      statusIs v "fail" = true ∧
      getStrField v "check" = some id ∧
      ∃ pre suf, getStrField v "message"
        = some (pre ++ "timed out after 50ms" ++ suf) := by
  obtain ⟨c, cs, rfl⟩ : ∃ c cs, l = c :: cs := by
    cases l with
    | nil => exact absurd hin (List.not_mem_nil id)
    | cons c cs => exact ⟨c, cs, rfl⟩
  have hsel : selectChecksToRun r
      (mergeOptions { checks := some (c :: cs), timeout := some 50 })
        = (c :: cs).filter (fun i => r.has i) := rfl
  have hhas : r.has id = true := by simp [Registry.has, hg]
  have hidsel : id ∈ (c :: cs).filter (fun i => r.has i) :=
    List.mem_filter.mpr ⟨hin, hhas⟩
  have hselne : (c :: cs).filter (fun i => r.has i) ≠ [] := by
    intro h
    rw [h] at hidsel
    exact absurd hidsel (List.not_mem_nil id)
  have hcont : (mergeOptions
      { checks := some (c :: cs), timeout := some 50 }).continueOnError
        = true := rfl
  have hpar : (mergeOptions
      { checks := some (c :: cs), timeout := some 50 }).parallel = false := rfl
  have hto : (mergeOptions
      { checks := some (c :: cs), timeout := some 50 }).timeout = 50 := rfl
  rw [runHealthChecksT_eq, hsel,
    if_neg (fun h => hselne (List.isEmpty_iff.mp h)), hpar, if_neg (by simp)]
  unfold runChecksSequentially
  rw [runSeqLoop_eq_foldl dp r _ ts _ initState hcont, hto]
  have hmmem : m ∈ r.getExecutionOrder
      (some ((c :: cs).filter (fun i => r.has i))) :=
    mem_getExecutionOrder_some.mpr ⟨he, id, hidsel, hg⟩
  have hidord : id ∈ (r.getExecutionOrder
      (some ((c :: cs).filter (fun i => r.has i)))).map (fun m => m.id) :=
    List.mem_map.mpr ⟨m, hmmem, Registry.get_id hg⟩
  have hlk := foldl_stepCheck_lookup dp r 50 ts
    ((r.getExecutionOrder
      (some ((c :: cs).filter (fun i => r.has i)))).map (fun m => m.id))
    initState id
  rw [if_pos hidord] at hlk
  have hsv : storedVal dp r 50 ts id
      = createCheckErrorResult ts id
          ("Health check '" ++ id ++ "' timed out after "
            ++ Nat.repr 50 ++ "ms") := by
    unfold storedVal
    rw [executeWithTimeout_hang dp 50 hg he hb]
  refine ⟨createCheckErrorResult ts id
    ("Health check '" ++ id ++ "' timed out after " ++ Nat.repr 50 ++ "ms"),
    ?_, ?_, createCheckErrorResult_check ts id _, ?_⟩
  · apply mapLookup_mem_values
    rw [hlk, hsv]
  · exact statusIs_eq_true_iff.mpr (createCheckErrorResult_status ts id _)
  · refine ⟨"Health check execution failed: "
      ++ ("Health check '" ++ id ++ "' "), "", ?_⟩
    rw [createCheckErrorResult_message]
    congr 1
    simp only [String.append_assoc, String.append_empty]
    congr 2

/-- Witness for C5 at a concrete input: the hanging check `h` of registry
`RH`, run with `timeout = 50`, yields a fail result whose message contains
"timed out after 50ms". -/
theorem claim5_witness :
    ∃ v ∈ (runHealthChecksT dpAll RH pv1 "T" 0
        { checks := some ["h"], timeout := some 50 }).1.results,
      statusIs v "fail" = true ∧
      getStrField v "check" = some "h" ∧
      ∃ pre suf, getStrField v "message"
        = some (pre ++ "timed out after 50ms" ++ suf) :=
  claim5_timeout_to_fail dpAll RH pv1 "T" 0 ["h"] "h" mHangH rfl rfl rfl
    (by simp)

/-- C9: every Report carries at most one result per check id: results are
collected into a Map keyed by id, so when `options.checks` lists registered,
enabled ids with repetitions (the explicit-checks selection path does not
deduplicate), the check function is invoked once per occurrence (the
invocation trace is a permutation of the requested list) while the results
Map has pairwise-distinct keys covering exactly the requested ids, the
Report's results are that Map's values, and `summary.total` counts each id
once (it equals the Map's size). -/
theorem claim9_one_result_per_id (dp : String → Bool) (r : Registry)
    (pv : ProviderInfo) (ts : String) (elapsed : Nat) (l : List String)
    (hne : l ≠ [])
    (hreg : ∀ i ∈ l, ∃ m, r.get i = some m ∧ m.enabled = true) :
    ((runHealthChecksT dp r pv ts elapsed { checks := some l }).2).Perm l ∧
    (mapKeys (runChecksSequentially dp r (mergeOptions { checks := some l })
        ts l initState).results).Nodup ∧
    (∀ k, k ∈ mapKeys (runChecksSequentially dp r
        (mergeOptions { checks := some l }) ts l initState).results ↔ k ∈ l) ∧
    (runHealthChecksT dp r pv ts elapsed { checks := some l }).1.results
      = mapValues (runChecksSequentially dp r (mergeOptions { checks := some l })
          ts l initState).results ∧
    (runHealthChecksT dp r pv ts elapsed { checks := some l }).1.summary.total
      = (runChecksSequentially dp r (mergeOptions { checks := some l })
          ts l initState).results.length := by
  obtain ⟨c, cs, rfl⟩ : ∃ c cs, l = c :: cs := by
    cases l with
    | nil => exact absurd rfl hne
    | cons c cs => exact ⟨c, cs, rfl⟩
  have hfil : (c :: cs).filter (fun i => r.has i) = c :: cs :=
    List.filter_eq_self.mpr (fun i hi => by
      obtain ⟨m, hm, -⟩ := hreg i hi
      simp [Registry.has, hm])
  have hsel2 : selectChecksToRun r (mergeOptions { checks := some (c :: cs) })
      = c :: cs := by
    rw [show selectChecksToRun r (mergeOptions { checks := some (c :: cs) })
      = (c :: cs).filter (fun i => r.has i) from rfl, hfil]
  have hpar : (mergeOptions { checks := some (c :: cs) }).parallel = false := rfl
  have hrun : runChecksSequentially dp r
        (mergeOptions { checks := some (c :: cs) }) ts (c :: cs) initState
      = ((r.getExecutionOrder (some (c :: cs))).map (fun m => m.id)).foldl
          (stepCheck dp r 30000 ts) initState := by
    unfold runChecksSequentially
    rw [runSeqLoop_eq_foldl dp r _ ts _ initState rfl]
    rfl
  have hperm : ((r.getExecutionOrder (some (c :: cs))).map
      (fun m => m.id)).Perm (c :: cs) := getExecutionOrder_ids_perm hreg
  have hids : ∀ k ∈ (r.getExecutionOrder (some (c :: cs))).map (fun m => m.id),
      invokesCheck r k = true := by
    intro k hk
    obtain ⟨mm, hmm, rfl⟩ := List.mem_map.mp hk
    obtain ⟨hen, i, hi, hgi⟩ := mem_getExecutionOrder_some.mp hmm
    have hgm : r.get mm.id = some mm := by
      rw [Registry.get_id hgi]
      exact hgi
    unfold invokesCheck
    rw [hgm]
    exact hen
  rw [runHealthChecksT_eq, hsel2, if_neg (by simp), hpar, if_neg (by simp)]
  refine ⟨?_, ?_, ?_, rfl, ?_⟩
  · show (runChecksSequentially dp r (mergeOptions { checks := some (c :: cs) })
        ts (c :: cs) initState).invocations.Perm (c :: cs)
    rw [hrun, foldl_stepCheck_invocations,
      List.filter_eq_self.mpr (fun i hi => hids i hi)]
    simpa [initState] using hperm
  · rw [hrun]
    exact foldl_stepCheck_keys_nodup dp r 30000 ts _ initState
      (by simp [initState, mapKeys])
  · intro k
    rw [hrun, foldl_stepCheck_keys_mem]
    constructor
    · rintro (h | h)
      · simp [initState, mapKeys] at h
      · exact hperm.mem_iff.mp h
    · intro h
      exact Or.inr (hperm.mem_iff.mpr h)
  · show (calcCore (mapValues (runChecksSequentially dp r
        (mergeOptions { checks := some (c :: cs) }) ts (c :: cs)
        initState).results)).total = _
    show (mapValues (runChecksSequentially dp r
        (mergeOptions { checks := some (c :: cs) }) ts (c :: cs)
        initState).results).length = _
    simp [mapValues]

/-- Witness for C9 at a concrete input: requesting `["a", "a"]` against the
one-check registry `R1` invokes the check twice (trace a permutation of the
request) but yields a single result, with `summary.total = 1`. -/
theorem claim9_witness :
    ((runHealthChecksT dpAll R1 pv1 "T" 0 { checks := some ["a", "a"] }).2).Perm
      ["a", "a"] ∧
    (runHealthChecksT dpAll R1 pv1 "T" 0
        { checks := some ["a", "a"] }).1.summary.total
      = (runChecksSequentially dpAll R1 (mergeOptions { checks := some ["a", "a"] })
          "T" ["a", "a"] initState).results.length ∧
    (runChecksSequentially dpAll R1 (mergeOptions { checks := some ["a", "a"] })
        "T" ["a", "a"] initState).results.length = 1 := by
  have h := claim9_one_result_per_id dpAll R1 pv1 "T" 0 ["a", "a"]
    (by simp) (fun i hi => by
      simp only [List.mem_cons, List.not_mem_nil, or_false] at hi
      rcases hi with rfl | rfl <;> exact ⟨mA, rfl, rfl⟩)
  have hord : R1.getExecutionOrder (some ["a", "a"]) = [mA, mA] := by
    show (((["a", "a"].filterMap R1.get)).filter (fun m => m.enabled)).mergeSort
        metaLe = _
    rw [show ((["a", "a"].filterMap R1.get)).filter (fun m => m.enabled)
        = [mA, mA] from rfl]
    refine List.mergeSort_of_sorted (List.Pairwise.cons ?_ (by simp))
    intro b hb
    simp only [List.mem_singleton] at hb
    subst hb
    simp [metaLe]
  refine ⟨h.1, h.2.2.2.2, ?_⟩
  show (runSeqLoop dpAll R1 (mergeOptions { checks := some ["a", "a"] }) "T"
      (R1.getExecutionOrder (some ["a", "a"])) initState).results.length = 1
  rw [hord]
  rfl

end SpecUpT
